import Mathlib

/-!
Verification of the astral-agents core against its specification.

The Python sources embedded here (shallowly) are:
- `src/agents/core/payloads2/completion.py` (`output_to_items` and the
  pydantic output model it constructs),
- `src/agents/core/payloads2/stream.py` (`_Block`, `_OutputState`),
- `src/agents/core/guardrail.py` (`InputGuardrail.run`, `OutputGuardrail.run`),
- `src/agents/core/hooks.py` (`HookRegistry._run_hooks`, `run_error`).

Python `dict` values are modelled as association lists with first-match
lookup (keys are unique in every payload considered), Python exceptions as
an explicit error type threaded through `Except`, and `json.loads` as an
executable JSON parser over the same value type.
-/

namespace Astral

/-- A JSON value, as produced by Python's `json.loads` and carried inside
provider payload dictionaries.  Non-integer numeric literals are kept as
their lexeme (`float`): no code path under verification inspects them. -/
inductive Json where
  | null : Json
  | bool (b : Bool) : Json
  | num (n : Int) : Json
  | float (lit : String) : Json
  | str (s : String) : Json
  | arr (elems : List Json) : Json
  | obj (fields : List (String × Json)) : Json

/-- Python `dict.get`/`dict[k]` lookup on an association list: first match. -/
def jget (fields : List (String × Json)) (key : String) : Option Json :=
  match fields with
  | [] => none
  | (k, v) :: rest => if k = key then some v else jget rest key

/-- Python `d[k] = v`: replace the value in place if the key is present,
append at the end otherwise (insertion order is preserved). -/
def setKey (fields : List (String × Json)) (key : String) (v : Json) :
    List (String × Json) :=
  match fields with
  | [] => [(key, v)]
  | (k, w) :: rest =>
    if k = key then (k, v) :: rest else (k, w) :: setKey rest key v

/-- Python `acc.update(incoming)`: assign every incoming pair in order. -/
def dictUpdate (acc incoming : List (String × Json)) : List (String × Json) :=
  incoming.foldl (fun a kv => setKey a kv.1 kv.2) acc

/-! Embedding of `json.loads` (Python standard library, as called by
`output_to_items`): a recursive-descent JSON parser.  Whitespace, the
literals, strings with the standard escapes, integers, floats (kept as
lexemes) and the Python-specific `NaN`/`Infinity` extensions are accepted;
the parse fails exactly where `json.loads` raises `JSONDecodeError`. -/

/-- JSON whitespace characters. -/
def isWs (c : Char) : Bool :=
  c = ' ' || c = '\t' || c = '\n' || c = '\r'

/-- Drop leading JSON whitespace. -/
def skipWs : List Char → List Char
  | [] => []
  | c :: rest => if isWs c then skipWs rest else c :: rest

/-- Value of a hexadecimal digit, if the character is one. -/
def hexVal (c : Char) : Option Nat :=
  if '0' ≤ c ∧ c ≤ '9' then some (c.toNat - 48)
  else if 'a' ≤ c ∧ c ≤ 'f' then some (c.toNat - 87)
  else if 'A' ≤ c ∧ c ≤ 'F' then some (c.toNat - 55)
  else none

/-- Single-character JSON string escapes. -/
def escChar (c : Char) : Option Char :=
  if c = '"' then some '"'
  else if c = '\\' then some '\\'
  else if c = '/' then some '/'
  else if c = 'b' then some (Char.ofNat 8)
  else if c = 'f' then some (Char.ofNat 12)
  else if c = 'n' then some '\n'
  else if c = 'r' then some '\r'
  else if c = 't' then some '\t'
  else none

/-- Parse the body of a JSON string (the opening quote already consumed),
returning the decoded characters and the remaining input. -/
def parseStrChars : Nat → List Char → Option (List Char × List Char)
  | 0, _ => none
  | _, [] => none
  | fuel + 1, c :: rest =>
    if c = '"' then some ([], rest)
    else if c = '\\' then
      match rest with
      | [] => none
      | e :: r =>
        if e = 'u' then
          match r with
          | a :: b :: c2 :: d :: r2 =>
            match hexVal a, hexVal b, hexVal c2, hexVal d with
            | some ha, some hb, some hc, some hd =>
              (parseStrChars fuel r2).map
                (fun p => (Char.ofNat (((ha * 16 + hb) * 16 + hc) * 16 + hd) :: p.1, p.2))
            | _, _, _, _ => none
          | _ => none
        else
          match escChar e with
          | some ec => (parseStrChars fuel r).map (fun p => (ec :: p.1, p.2))
          | none => none
    else if c.toNat < 32 then none
    else (parseStrChars fuel rest).map (fun p => (c :: p.1, p.2))

/-- Numeric value of a digit string. -/
def digitsVal (ds : List Char) : Nat :=
  ds.foldl (fun a c => a * 10 + (c.toNat - 48)) 0

/-- Lex an optional fraction part; fails on a dot with no digits. -/
def lexFrac : List Char → Option (List Char × List Char)
  | '.' :: r =>
    let p := r.span (fun c => c.isDigit)
    if p.1 = [] then none else some ('.' :: p.1, p.2)
  | cs => some ([], cs)

/-- Lex an optional exponent part; fails on `e` with no digits. -/
def lexExpPart : List Char → Option (List Char × List Char)
  | [] => some ([], [])
  | c :: r =>
    if c = 'e' ∨ c = 'E' then
      let q : List Char × List Char :=
        match r with
        | s :: r1 => if s = '+' ∨ s = '-' then ([s], r1) else ([], r)
        | [] => ([], r)
      let p := q.2.span (fun ch => ch.isDigit)
      if p.1 = [] then none else some (c :: (q.1 ++ p.1), p.2)
    else some ([], c :: r)

/-- Lex a JSON number: an integer yields `Json.num`, a fraction or exponent
yields `Json.float` holding the lexeme.  Leading zeros are rejected, as in
Python's `json`. -/
def lexNumber (cs : List Char) : Option (Json × List Char) :=
  let sp : List Char × List Char :=
    match cs with
    | '-' :: r => (['-'], r)
    | _ => ([], cs)
  let dp := sp.2.span (fun c => c.isDigit)
  if dp.1 = [] then none
  else if dp.1.head? = some '0' ∧ 1 < dp.1.length then none
  else
    match lexFrac dp.2 with
    | none => none
    | some (fr, cs3) =>
      match lexExpPart cs3 with
      | none => none
      | some (ex, cs4) =>
        if fr = [] ∧ ex = [] then
          some (Json.num ((if sp.1 = [] then 1 else -1) * (digitsVal dp.1 : Int)), cs4)
        else
          some (Json.float (String.mk (sp.1 ++ dp.1 ++ fr ++ ex)), cs4)

mutual

/-- Parse one JSON value, fuelled. -/
def parseValue : Nat → List Char → Option (Json × List Char)
  | 0, _ => none
  | fuel + 1, cs =>
    match skipWs cs with
    | '{' :: rest =>
      (match skipWs rest with
       | '}' :: r2 => some (Json.obj [], r2)
       | _ =>
         match parseMembers fuel rest with
         | some (kvs, r2) => some (Json.obj (dictUpdate [] kvs), r2)
         | none => none)
    | '[' :: rest =>
      (match skipWs rest with
       | ']' :: r2 => some (Json.arr [], r2)
       | _ =>
         match parseItems fuel rest with
         | some (xs, r2) => some (Json.arr xs, r2)
         | none => none)
    | '"' :: rest =>
      (match parseStrChars (rest.length + 1) rest with
       | some (chars, r2) => some (Json.str (String.mk chars), r2)
       | none => none)
    | 't' :: 'r' :: 'u' :: 'e' :: rest => some (Json.bool true, rest)
    | 'f' :: 'a' :: 'l' :: 's' :: 'e' :: rest => some (Json.bool false, rest)
    | 'n' :: 'u' :: 'l' :: 'l' :: rest => some (Json.null, rest)
    | 'N' :: 'a' :: 'N' :: rest => some (Json.float "NaN", rest)
    | 'I' :: 'n' :: 'f' :: 'i' :: 'n' :: 'i' :: 't' :: 'y' :: rest =>
      some (Json.float "Infinity", rest)
    | '-' :: 'I' :: 'n' :: 'f' :: 'i' :: 'n' :: 'i' :: 't' :: 'y' :: rest =>
      some (Json.float "-Infinity", rest)
    | other => lexNumber other

/-- Parse the comma-separated items of a non-empty array, fuelled. -/
def parseItems : Nat → List Char → Option (List Json × List Char)
  | 0, _ => none
  | fuel + 1, cs =>
    match parseValue fuel cs with
    | none => none
    | some (v, rest) =>
      match skipWs rest with
      | ',' :: r2 =>
        (match parseItems fuel r2 with
         | some (xs, r3) => some (v :: xs, r3)
         | none => none)
      | ']' :: r2 => some ([v], r2)
      | _ => none

/-- Parse the members of a non-empty object, fuelled. -/
def parseMembers : Nat → List Char → Option (List (String × Json) × List Char)
  | 0, _ => none
  | fuel + 1, cs =>
    match skipWs cs with
    | '"' :: rest =>
      (match parseStrChars (rest.length + 1) rest with
       | none => none
       | some (kcs, r1) =>
         match skipWs r1 with
         | ':' :: r2 =>
           (match parseValue fuel r2 with
            | none => none
            | some (v, r3) =>
              match skipWs r3 with
              | ',' :: r4 =>
                (match parseMembers fuel r4 with
                 | some (kvs, r5) => some ((String.mk kcs, v) :: kvs, r5)
                 | none => none)
              | '}' :: r4 => some ([(String.mk kcs, v)], r4)
              | _ => none)
         | _ => none)
    | _ => none

end

/-- Embedding of `json.loads` on a string argument: parse one value and
require only whitespace to follow; `none` exactly when `json.loads` raises
`json.JSONDecodeError`. -/
def json_loads (s : String) : Option Json :=
  match parseValue (4 * s.length + 8) s.data with
  | some (v, rest) => if skipWs rest = [] then some v else none
  | none => none

/-! Embedding of `payloads2/completion.py`. -/

/-- The `ResponseStatus` enum of `completion.py`. -/
inductive ResponseStatus where
  | completed
  | failed
  | in_progress
  | incomplete
deriving DecidableEq

/-- Coercion `ResponseStatus(s)` on a string: `none` models `ValueError`. -/
def parseResponseStatus (s : String) : Option ResponseStatus :=
  if s = "completed" then some .completed
  else if s = "failed" then some .failed
  else if s = "in_progress" then some .in_progress
  else if s = "incomplete" then some .incomplete
  else none

/-- The `StopReason` enum of `completion.py`. -/
inductive StopReason where
  | end_turn
  | max_tokens
  | stop_sequence
  | tool_use
  | content_filter
deriving DecidableEq

/-- Coercion `StopReason(s)` on a string: `none` models `ValueError`. -/
def parseStopReason (s : String) : Option StopReason :=
  if s = "end_turn" then some .end_turn
  else if s = "max_tokens" then some .max_tokens
  else if s = "stop_sequence" then some .stop_sequence
  else if s = "tool_use" then some .tool_use
  else if s = "content_filter" then some .content_filter
  else none

/-- The `ContentPart` tagged union of `completion.py`: `TextPart`,
`ToolUsePart` and `ToolReferencePart`, discriminated by `type`. -/
inductive ContentPart where
  | text (text : String) (annotations : Option (List Json))
  | tool_use (id : String) (name : String) (input : List (String × Json))
      (status : Option ResponseStatus)
  | tool_reference (call_id : String) (tool_name : Option String)
      (status : Option ResponseStatus) (data : Option (List (String × Json)))

/-- The `MessageOutput` model of `completion.py` (its `type` field is the
constant `"message"`; `role` is constrained to `assistant`/`user` by the
construction-time validation embedded in `convertBlock`). -/
structure MessageOutput where
  id : String
  role : String
  provider_role : Option String
  status : ResponseStatus
  content : List ContentPart
  stop_reason : Option StopReason
  stop_sequence : Option String

/-- Python exceptions that `output_to_items` can raise: `KeyError` from
`obj["id"]`/`obj["role"]`, pydantic `ValidationError` from model
construction, `TypeError` from `json.loads` on a non-string or iterating a
non-iterable, `AttributeError` from `.get` on a non-dict, and `NameError`
from an unbound module-level name (`hooks.py`). -/
inductive PyErr where
  | keyError (key : String)
  | validationError
  | typeError
  | attributeError
  | nameError (missing : String)
deriving DecidableEq

/-- A raw provider output block after `model_dump`: a Python dict. -/
def RawObj : Type := List (String × Json)

/-- Embedding of `_get_status`: read `obj.get("status", COMPLETED)` and
default to `completed` on a missing or unrecognized value. -/
def get_status_of (o : RawObj) : ResponseStatus :=
  match jget o "status" with
  | some (Json.str s) => (parseResponseStatus s).getD .completed
  | _ => .completed

/-- Value of `obj.get("type", "")` when it is a string; `none` when the
block carries a non-string discriminator (which then matches no branch). -/
def typeTag (o : RawObj) : Option String :=
  match (jget o "type").getD (Json.str "") with
  | Json.str s => some s
  | _ => none

/-- Condition `content.get("type") in ("output_text", "text")` of the
message-branch comprehension. -/
def innerKeep (c : List (String × Json)) : Bool :=
  match jget c "type" with
  | some (Json.str s) => s = "output_text" || s = "text"
  | _ => false

/-- Iterate `obj.get("content", [])`: a list yields its elements; an empty
string or empty dict yields nothing; any other string or dict reaches the
comprehension's `.get` on a non-dict element (`AttributeError`); the rest
are not iterable (`TypeError`). -/
def contentList (o : RawObj) : Except PyErr (List Json) :=
  match jget o "content" with
  | none => .ok []
  | some (Json.arr xs) => .ok xs
  | some (Json.str s) => if s.isEmpty then .ok [] else .error .attributeError
  | some (Json.obj kvs) => if kvs.isEmpty then .ok [] else .error .attributeError
  | some _ => .error .typeError

/-- The message-branch comprehension
`[TextPart(text=content.get("text", "")) for content in ... if content.get("type") in ...]`:
kept entries must carry a string `text` (pydantic), dropped entries are
skipped, a non-dict entry raises `AttributeError` at its `.get`. -/
def textPartsOf : List Json → Except PyErr (List ContentPart)
  | [] => .ok []
  | Json.obj c :: rest =>
    if innerKeep c then
      match (jget c "text").getD (Json.str "") with
      | Json.str t => (textPartsOf rest).map (fun ps => ContentPart.text t none :: ps)
      | _ => .error .validationError
    else textPartsOf rest
  | _ :: _ => .error .attributeError

/-- Test for a Python `dict` value. -/
def Json.isObj : Json → Bool
  | Json.obj _ => true
  | _ => false

/-- Fields of a Python `dict` value (empty for non-dicts). -/
def Json.objFields : Json → List (String × Json)
  | Json.obj kvs => kvs
  | _ => []

/-- Pydantic validation of an `Optional[str]` field. -/
def optStr : Option Json → Except PyErr (Option String)
  | none => .ok none
  | some Json.null => .ok none
  | some (Json.str s) => .ok (some s)
  | some _ => .error .validationError

/-- Pydantic validation of the `Optional[StopReason]` field. -/
def optStopReason : Option Json → Except PyErr (Option StopReason)
  | none => .ok none
  | some Json.null => .ok none
  | some (Json.str s) =>
    (match parseStopReason s with
     | some r => .ok (some r)
     | none => .error .validationError)
  | some _ => .error .validationError

/-- Processing of one raw block by the loop body of `output_to_items`:
`ok none` for a silently skipped unknown discriminator, `ok (some item)`
for an emitted item, `error` for a propagated Python exception. -/
def convertBlock (o : RawObj) : Except PyErr (Option MessageOutput) :=
  let status := get_status_of o
  if typeTag o = some "message" then
    match contentList o with
    | .error e => .error e
    | .ok entries =>
      match textPartsOf entries with
      | .error e => .error e
      | .ok parts =>
        match jget o "id" with
        | none => .error (.keyError "id")
        | some idv =>
          match jget o "role" with
          | none => .error (.keyError "role")
          | some rolev =>
            match idv with
            | Json.str idS =>
              match rolev with
              | Json.str roleS =>
                if roleS = "assistant" ∨ roleS = "user" then
                  match optStr (jget o "provider_role") with
                  | .error e => .error e
                  | .ok pr =>
                    match optStopReason (jget o "stop_reason") with
                    | .error e => .error e
                    | .ok srsn =>
                      match optStr (jget o "stop_sequence") with
                      | .error e => .error e
                      | .ok sseq =>
                        .ok (some { id := idS, role := roleS, provider_role := pr,
                                    status := status, content := parts,
                                    stop_reason := srsn, stop_sequence := sseq })
                else .error .validationError
              | _ => .error .validationError
            | _ => .error .validationError
  else if typeTag o = some "function_call" then
    match (jget o "arguments").getD (Json.str "\x7b\x7d") with
    | Json.str s =>
      let input_json := (json_loads s).getD (Json.obj [])
      (match jget o "id" with
       | none => .error (.keyError "id")
       | some idv =>
         match idv with
         | Json.str idS =>
           (match (jget o "name").getD (Json.str "unknown_function") with
            | Json.str nameS =>
              if input_json.isObj then
                .ok (some { id := idS, role := "assistant", provider_role := none,
                            status := status,
                            content := [ContentPart.tool_use idS nameS
                              input_json.objFields (some status)],
                            stop_reason := none, stop_sequence := none })
              else .error .validationError
            | _ => .error .validationError)
         | _ => .error .validationError)
    | _ => .error .typeError
  else if typeTag o = some "web_search_call" ∨ typeTag o = some "file_search_call" ∨
      typeTag o = some "computer_call" then
    let aux := o.filter (fun kv => ¬(kv.1 = "type" ∨ kv.1 = "id" ∨ kv.1 = "status"))
    let tname :=
      if typeTag o = some "computer_call" then "computer_use"
      else (typeTag o).getD ""
    match (jget o "id").getD (Json.str "") with
    | Json.str cid =>
      .ok (some { id := cid, role := "assistant", provider_role := none,
                  status := status,
                  content := [ContentPart.tool_reference cid (some tname) (some status) (some aux)],
                  stop_reason := none, stop_sequence := none })
    | _ => .error .validationError
  else .ok none

/-- Embedding of `output_to_items`: fold `convertBlock` over the blocks in
order; the first propagated exception aborts the whole conversion. -/
def output_to_items : List RawObj → Except PyErr (List MessageOutput)
  | [] => .ok []
  | o :: rest =>
    match convertBlock o with
    | .error e => .error e
    | .ok none => output_to_items rest
    | .ok (some m) => (output_to_items rest).map (fun its => m :: its)

/-- Discriminators handled by `output_to_items` (everything else is skipped). -/
def isKnownBlock (o : RawObj) : Bool :=
  typeTag o = some "message" || typeTag o = some "function_call" ||
    typeTag o = some "web_search_call" || typeTag o = some "file_search_call" ||
    typeTag o = some "computer_call"

/-- The item emitted for a block that converts to one (placeholder otherwise). -/
def itemOf (o : RawObj) : MessageOutput :=
  match convertBlock o with
  | .ok (some m) => m
  | _ => { id := "", role := "", provider_role := none, status := .completed,
           content := [], stop_reason := none, stop_sequence := none }

/-- Decidable test that processing a block raises no Python exception. -/
def convOkB (o : RawObj) : Bool :=
  match convertBlock o with
  | .ok _ => true
  | .error _ => false

/-- Decidable test that an `Except` computation succeeded. -/
def exceptOkB {α : Type} (e : Except PyErr α) : Bool :=
  match e with
  | .ok _ => true
  | .error _ => false

/-- The text part retained for one inner content entry of a `message`
block, if any: entries of inner type `output_text`/`text` with a string (or
absent) `text` field are kept, all others are dropped. -/
def keptText (e : Json) : Option ContentPart :=
  match e with
  | Json.obj c =>
    if innerKeep c then
      match (jget c "text").getD (Json.str "") with
      | Json.str t => some (ContentPart.text t none)
      | _ => none
    else none
  | _ => none

/-- Decidable test that one inner content entry raises no exception in the
message-branch comprehension: it is a dict and, when kept, its `text` value
is a string (or absent). -/
def innerOkB (e : Json) : Bool :=
  match e with
  | Json.obj c =>
    !(innerKeep c) ||
      (match (jget c "text").getD (Json.str "") with
       | Json.str _ => true
       | _ => false)
  | _ => false

/-- Decidable test that a `message` block's optional fields pass pydantic
validation. -/
def optFieldsOkB (o : RawObj) : Bool :=
  exceptOkB (optStr (jget o "provider_role")) &&
    exceptOkB (optStopReason (jget o "stop_reason")) &&
    exceptOkB (optStr (jget o "stop_sequence"))

/-- Decidable test that a `message` block's `content` iterates and filters
without raising. -/
def msgPartsOkB (o : RawObj) : Bool :=
  match contentList o with
  | .ok es => es.all innerOkB
  | .error _ => false

/-- Decidable test that a `function_call` block's `arguments` value is
absent or a string (so that `json.loads` does not raise `TypeError`). -/
def argsStrB (o : RawObj) : Bool :=
  match jget o "arguments" with
  | none => true
  | some (Json.str _) => true
  | _ => false

/-- Decidable test that a `function_call` block's `name` value is absent or
a string. -/
def nameOkB (o : RawObj) : Bool :=
  match (jget o "name").getD (Json.str "unknown_function") with
  | Json.str _ => true
  | _ => false

/-! Embedding of `payloads2/stream.py`. -/

/-- The `BlockType` enum of `stream.py`. -/
inductive BlockType where
  | TEXT
  | TOOL
  | STRUCTURED
  | REASONING
deriving DecidableEq


/-- The `_Block` class of `stream.py`: mutable per-index accumulation state,
represented functionally (each method returns the updated block). -/
structure Block where
  type : BlockType
  content : String
  json_content : Json
  closed : Bool
  tool_name : Option String
  tool_id : Option String

/-- The `_Block.__init__` state. -/
def Block.init (t : BlockType) : Block :=
  ⟨t, "", Json.obj [], false, none, none⟩

/-- Method `_Block.add_text`: append to the text buffer unless closed. -/
def Block.add_text (b : Block) (text : String) : Block :=
  if b.closed then b else { b with content := b.content ++ text }

/-- Method `_Block.add_json`: unless closed, shallow-merge when both the
accumulated value and the incoming fragment are dicts (`dict.update`),
otherwise replace the accumulated value wholesale. -/
def Block.add_json (b : Block) (json_part : Json) : Block :=
  if b.closed then b
  else
    match json_part, b.json_content with
    | Json.obj inc, Json.obj acc =>
      { b with json_content := Json.obj (dictUpdate acc inc) }
    | jp, _ => { b with json_content := jp }

/-- Method `_Block.close`: mark the block closed. -/
def Block.close (b : Block) : Block :=
  { b with closed := true }

/-- Lookup in the `blocks` dictionary of `_OutputState`. -/
def lookupBlock (bs : List (Nat × Block)) (i : Nat) : Option Block :=
  match bs with
  | [] => none
  | (k, b) :: rest => if k = i then some b else lookupBlock rest i

/-- The `_OutputState` class of `stream.py`: the in-flight item placeholder
and the index-to-block mapping. -/
structure OutputState where
  item : Option MessageOutput
  blocks : List (Nat × Block)

/-- The `_OutputState.__init__` state. -/
def OutputState.init : OutputState :=
  ⟨none, []⟩

/-- Method `_OutputState.block`: get or create the block at an index. -/
def OutputState.block (st : OutputState) (index : Nat) (t : BlockType) :
    OutputState × Block :=
  match lookupBlock st.blocks index with
  | some b => (st, b)
  | none => ({ st with blocks := st.blocks ++ [(index, Block.init t)] }, Block.init t)

/-- Snapshot content parts of a block, from its current buffers. -/
def snapshotParts (b : Block) : List ContentPart :=
  match b.type with
  | BlockType.TOOL =>
    [ContentPart.tool_use (b.tool_id.getD "") (b.tool_name.getD "")
      (match b.json_content with | Json.obj kvs => kvs | _ => [])
      (some (if b.closed then .completed else .in_progress))]
  | _ => [ContentPart.text b.content none]

/-- Modelled from the spec: the accumulator query `current_item(index)` is
absent from the copy of `stream.py` under `src/` (the file ends inside
`_OutputState`, right after `block`).  Per the spec it returns an Output
Item-shaped snapshot of the best-known content of the block at `index`,
carrying status `in_progress` while the block is open and a finalized
status once it is closed. -/
def OutputState.current_item (st : OutputState) (index : Nat) :
    Option MessageOutput :=
  match lookupBlock st.blocks index with
  | none => none
  | some b =>
    some ⟨b.tool_id.getD "", "assistant", none,
      (if b.closed then .completed else .in_progress), snapshotParts b, none, none⟩

/-! Embedding of `guardrail.py`. -/

/-- The `UserError` exception raised for a non-callable guardrail target. -/
structure UserError where
  msg : String

/-- The `GuardrailFunctionOutput` dataclass. -/
structure GuardrailFunctionOutput (Info : Type) where
  output_info : Info
  tripwire_triggered : Bool

/-- A configured `guardrail_function` attribute: either not callable at all,
or a callable returning its value directly, or a callable returning an
awaitable that resolves to the value (`inspect.isawaitable` path). -/
inductive GuardTarget (Ctx Ag Inp Info : Type) where
  | notCallable
  | sync (f : Ctx → Ag → Inp → GuardrailFunctionOutput Info)
  | awaitable (f : Ctx → Ag → Inp → GuardrailFunctionOutput Info)

/-- The `InputGuardrail` dataclass. -/
structure InputGuardrail (Ctx Ag Inp Info : Type) where
  guardrail_function : GuardTarget Ctx Ag Inp Info
  name : Option String

/-- The `InputGuardrailResult` dataclass. -/
structure InputGuardrailResult (Ctx Ag Inp Info : Type) where
  guardrail : InputGuardrail Ctx Ag Inp Info
  output : GuardrailFunctionOutput Info

/-- Method `InputGuardrail.run`: raise `UserError` when the configured
check is not callable; otherwise invoke it, awaiting the result when it is
awaitable, and wrap the value unchanged in an `InputGuardrailResult`. -/
def InputGuardrail.run {Ctx Ag Inp Info : Type}
    (g : InputGuardrail Ctx Ag Inp Info) (context : Ctx) (agent : Ag)
    (input : Inp) :
    Except UserError (InputGuardrailResult Ctx Ag Inp Info) :=
  match g.guardrail_function with
  | .notCallable => .error ⟨"Input guardrail function must be callable"⟩
  | .sync f => .ok ⟨g, f context agent input⟩
  | .awaitable f => .ok ⟨g, f context agent input⟩

/-- The `OutputGuardrail` dataclass. -/
structure OutputGuardrail (Ctx Ag Out Info : Type) where
  guardrail_function : GuardTarget Ctx Ag Out Info
  name : Option String

/-- The `OutputGuardrailResult` dataclass. -/
structure OutputGuardrailResult (Ctx Ag Out Info : Type) where
  guardrail : OutputGuardrail Ctx Ag Out Info
  agent_output : Out
  agent : Ag
  output : GuardrailFunctionOutput Info

/-- Method `OutputGuardrail.run`: same contract as `InputGuardrail.run`,
additionally recording the inspected agent output and agent. -/
def OutputGuardrail.run {Ctx Ag Out Info : Type}
    (g : OutputGuardrail Ctx Ag Out Info) (context : Ctx) (agent : Ag)
    (agent_output : Out) :
    Except UserError (OutputGuardrailResult Ctx Ag Out Info) :=
  match g.guardrail_function with
  | .notCallable => .error ⟨"Output guardrail function must be callable"⟩
  | .sync f => .ok ⟨g, agent_output, agent, f context agent agent_output⟩
  | .awaitable f => .ok ⟨g, agent_output, agent, f context agent agent_output⟩

/-! Embedding of `hooks.py`.

The module executes `import logging` but never binds a module-level name
`logger` (every other module of the package does, e.g. `completion.py`
line 22).  The `except` handler of `HookRegistry._run_hooks` therefore
raises `NameError` at `logger.warning(...)` as soon as any hook fails, and
that `NameError` propagates out of `_run_hooks`.  The constant below
records that module-level fact of the source. -/

/-- Whether `hooks.py` binds a module-level name `logger`: it does not. -/
def hooks_logger_bound : Bool := false

/-- Behaviour of one registered hook when invoked: it either returns or
raises some exception. -/
inductive HookBeh where
  | ok
  | fails
deriving DecidableEq

/-- Embedding of `HookRegistry._run_hooks` with `is_error=True` (the body
of `run_error`): for each hook in order, invoke it; on an exception enter
the handler, whose `logger.warning` raises `NameError` because `logger` is
unbound; with a bound logger the failure would be logged and — because
`is_error` is true — not re-dispatched.  Returns the indices of the hooks
that were invoked and the exception propagated to the caller, if any. -/
def run_error_hooks : List HookBeh → Nat → List Nat × Option PyErr
  | [], _ => ([], none)
  | .ok :: t, i =>
    let r := run_error_hooks t (i + 1)
    (i :: r.1, r.2)
  | .fails :: t, i =>
    if hooks_logger_bound then
      let r := run_error_hooks t (i + 1)
      (i :: r.1, r.2)
    else ([i], some (.nameError "logger"))

/-- Embedding of `HookRegistry._run_hooks` with `is_error=False` (the body
of `run_agent_start`, `run_agent_end`, `run_tool_start`, `run_tool_end`):
for each hook in order, invoke it; on an exception enter the handler, whose
`logger.warning` raises `NameError` because `logger` is unbound; with a
bound logger the failure would be logged and re-dispatched through
`run_error` over the registered error hooks.  Returns the trace of invoked
hooks — `(true, k)` marks error-hook `k` invoked during a re-dispatch —
and the exception propagated to the caller, if any. -/
def run_event_hooks (errHooks : List HookBeh) :
    List HookBeh → Nat → List (Bool × Nat) × Option PyErr
  | [], _ => ([], none)
  | .ok :: t, i =>
    let r := run_event_hooks errHooks t (i + 1)
    ((false, i) :: r.1, r.2)
  | .fails :: t, i =>
    if hooks_logger_bound then
      let e := run_error_hooks errHooks 0
      match e.2 with
      | some ex => ((false, i) :: e.1.map (fun k => (true, k)), some ex)
      | none =>
        let r := run_event_hooks errHooks t (i + 1)
        ((false, i) :: (e.1.map (fun k => (true, k)) ++ r.1), r.2)
    else ([(false, i)], some (.nameError "logger"))

/-! Shared lemmas about the embedded operations. -/

/-- An `Except` computation passes `exceptOkB` exactly when it succeeded. -/
theorem exceptOkB_iff {α : Type} (e : Except PyErr α) :
    exceptOkB e = true ↔ ∃ x, e = .ok x := by
  cases e <;> simp [exceptOkB]

/-- Lookup after a single Python dict assignment: the assigned key reads the
new value and every other key is untouched. -/
theorem jget_setKey (a : List (String × Json)) (k : String) (v : Json) (key : String) :
    jget (setKey a k v) key = if key = k then some v else jget a key := by
  induction a with
  | nil =>
    by_cases h : key = k
    · simp [setKey, jget, h]
    · simp [setKey, jget, h, Ne.symm h]
  | cons p rest ih =>
    obtain ⟨pk, pv⟩ := p
    by_cases hp : pk = k
    · subst hp
      by_cases hk : key = pk
      · subst hk; simp [setKey, jget]
      · simp [setKey, jget, hk, Ne.symm hk]
    · by_cases hk : pk = key
      · subst hk
        simp [setKey, jget, hp, Ne.symm hp, ih]
      · simp [setKey, jget, hp, hk, ih]

/-- A key that occurs nowhere in the dict reads as absent. -/
theorem jget_none_of_not_mem (a : List (String × Json)) (key : String)
    (h : key ∉ a.map Prod.fst) : jget a key = none := by
  induction a with
  | nil => rfl
  | cons p rest ih =>
    simp only [List.map_cons, List.mem_cons] at h
    push_neg at h
    simp [jget, Ne.symm h.1, ih h.2]

/-- Lookup after `dict.update`: incoming keys win, all other keys keep the
accumulated value (incoming keys assumed distinct, as in any Python dict). -/
theorem jget_dictUpdate (acc inc : List (String × Json)) (key : String)
    (h : (inc.map Prod.fst).Nodup) :
    jget (dictUpdate acc inc) key =
      match jget inc key with
      | some v => some v
      | none => jget acc key := by
  induction inc generalizing acc with
  | nil => rfl
  | cons p rest ih =>
    obtain ⟨k, v⟩ := p
    simp only [List.map_cons, List.nodup_cons] at h
    have step : dictUpdate acc ((k, v) :: rest) = dictUpdate (setKey acc k v) rest := rfl
    rw [step, ih _ h.2]
    by_cases hk : key = k
    · subst hk
      rw [jget_none_of_not_mem rest key h.1]
      simp [jget, jget_setKey]
    · cases hrest : jget rest key with
      | none => simp [jget, Ne.symm hk, hk, jget_setKey, hrest]
      | some w => simp [jget, Ne.symm hk, hrest]

/-- The message-branch comprehension succeeds on well-formed inner entries
and keeps exactly the `output_text`/`text` entries, in order. -/
theorem textPartsOf_ok (es : List Json) (h : es.all innerOkB = true) :
    textPartsOf es = .ok (es.filterMap keptText) := by
  induction es with
  | nil => rfl
  | cons e rest ih =>
    simp only [List.all_cons, Bool.and_eq_true] at h
    obtain ⟨he, hrest⟩ := h
    cases e with
    | obj c =>
      by_cases hk : innerKeep c
      · simp only [innerOkB, hk, Bool.not_true, Bool.false_or] at he
        cases hjt : (jget c "text").getD (Json.str "") with
        | str t =>
          simp [textPartsOf, hk, hjt, ih hrest, List.filterMap_cons, keptText, Except.map]
        | null => rw [hjt] at he; simp at he
        | bool b => rw [hjt] at he; simp at he
        | num n => rw [hjt] at he; simp at he
        | float l => rw [hjt] at he; simp at he
        | arr xs => rw [hjt] at he; simp at he
        | obj kvs => rw [hjt] at he; simp at he
      · simp [textPartsOf, hk, ih hrest, List.filterMap_cons, keptText]
    | null => simp [innerOkB] at he
    | bool b => simp [innerOkB] at he
    | num n => simp [innerOkB] at he
    | float l => simp [innerOkB] at he
    | str s => simp [innerOkB] at he
    | arr xs => simp [innerOkB] at he

/-- A `message` block without an `id` key aborts the whole conversion with
`KeyError` (provided its content comprehension itself raises nothing). -/
theorem message_missing_id (o : RawObj) (rest : List RawObj)
    (ht : typeTag o = some "message")
    (hparts : msgPartsOkB o = true) (hid : jget o "id" = none) :
    output_to_items (o :: rest) = .error (.keyError "id") := by
  have hconv : convertBlock o = .error (.keyError "id") := by
    simp only [msgPartsOkB] at hparts
    cases hcl : contentList o with
    | ok es =>
      rw [hcl] at hparts
      have hp := textPartsOf_ok es hparts
      simp [convertBlock, ht, hcl, hp, hid]
    | error e => rw [hcl] at hparts; simp at hparts
  simp [output_to_items, hconv]

/-- A `function_call` block without an `id` key aborts the whole conversion
with `KeyError` (provided its `arguments` value is absent or a string). -/
theorem fc_missing_id (o : RawObj) (rest : List RawObj)
    (ht : typeTag o = some "function_call")
    (ha : argsStrB o = true) (hid : jget o "id" = none) :
    output_to_items (o :: rest) = .error (.keyError "id") := by
  have hconv : convertBlock o = .error (.keyError "id") := by
    simp only [argsStrB] at ha
    cases hj : jget o "arguments" with
    | none => simp [convertBlock, ht, hj, hid]
    | some v =>
      rw [hj] at ha
      cases v with
      | str s => simp [convertBlock, ht, hj, hid]
      | null => simp at ha
      | bool b => simp at ha
      | num n => simp at ha
      | float l => simp at ha
      | arr xs => simp at ha
      | obj kvs => simp at ha
  simp [output_to_items, hconv]

/-- A block with an unknown discriminator is skipped silently. -/
theorem convert_unknown (o : RawObj) (h : isKnownBlock o = false) :
    convertBlock o = .ok none := by
  simp only [isKnownBlock, Bool.or_eq_false_iff, decide_eq_false_iff_not] at h
  obtain ⟨⟨⟨⟨h1, h2⟩, h3⟩, h4⟩, h5⟩ := h
  simp [convertBlock, h1, h2, h3, h4, h5]

/-- A block with a known discriminator that converts without an exception
always emits an item (never `none`). -/
theorem convert_known_not_none (o : RawObj) (hk : isKnownBlock o = true)
    (h : convertBlock o = .ok none) : False := by
  simp only [isKnownBlock, Bool.or_eq_true, decide_eq_true_eq] at hk
  unfold convertBlock at h
  repeat' split at h
  all_goals try simp_all
  all_goals (revert h; split <;> simp)


/-! Claim theorems. -/

/-- C1: the spec claims hook dispatch isolates callback failures (each
callback runs in registration order, a failure is logged and re-dispatched
as an error event, and never propagates).  On the code as written this
fails: `hooks.py` never binds `logger`, so the very first failing hook
makes the `except` handler raise `NameError`, which propagates to the
caller and prevents the remaining hooks from running.  This theorem
evaluates the embedded dispatcher at the failing input `[fails, ok]` (with
no error hooks, and with one error hook registered), and checks the
failure-free case runs every hook in order. -/
theorem run_event_hooks_failure_propagates :
    run_event_hooks [] [HookBeh.fails, HookBeh.ok] 0 =
      ([(false, 0)], some (PyErr.nameError "logger")) ∧
    run_event_hooks [HookBeh.ok] [HookBeh.fails, HookBeh.ok] 0 =
      ([(false, 0)], some (PyErr.nameError "logger")) ∧
    run_event_hooks [] [HookBeh.ok, HookBeh.ok] 0 = ([(false, 0), (false, 1)], none) := by
  exact ⟨rfl, rfl, rfl⟩

/-- C5: the spec claims a failure raised while dispatching an `error` event
is caught and logged only, never re-dispatched.  The no-re-dispatch half
holds (the `is_error` guard), but on the code as written the caught-and-
logged half fails: the unbound `logger` makes the handler raise `NameError`
to `run_error`'s caller.  This theorem evaluates the embedded error
dispatcher at the failing input `[fails, ok]`, and checks the failure-free
case. -/
theorem run_error_hook_failure_propagates :
    run_error_hooks [HookBeh.fails, HookBeh.ok] 0 =
      ([0], some (PyErr.nameError "logger")) ∧
    run_error_hooks [HookBeh.ok, HookBeh.ok] 0 = ([0, 1], none) := ⟨rfl, rfl⟩

/-- C2: a `function_call` block whose `arguments` string is not valid JSON
is converted, without an exception, to exactly one message item whose sole
content part is a `tool_use` part with empty input, and the remaining
blocks of the sequence are still converted. -/
theorem function_call_invalid_arguments_empty_input (o : RawObj) (s i : String)
    (ht : typeTag o = some "function_call")
    (ha : jget o "arguments" = some (Json.str s))
    (hbad : json_loads s = none)
    (hid : jget o "id" = some (Json.str i))
    (hname : nameOkB o = true) :
    ∃ m nm, convertBlock o = .ok (some m) ∧
      m.content = [ContentPart.tool_use i nm [] (some (get_status_of o))] ∧
      ∀ rest, output_to_items (o :: rest) =
        (output_to_items rest).map (fun its => m :: its) := by
  simp only [nameOkB] at hname
  cases hn : (jget o "name").getD (Json.str "unknown_function") with
  | str nm =>
    have hconv : convertBlock o = .ok (some ⟨i, "assistant", none, get_status_of o,
        [ContentPart.tool_use i nm [] (some (get_status_of o))], none, none⟩) := by
      simp [convertBlock, ht, ha, hbad, hid, hn, Json.isObj, Json.objFields]
    refine ⟨_, nm, hconv, rfl, ?_⟩
    intro rest
    simp [output_to_items, hconv]
  | null => rw [hn] at hname; simp at hname
  | bool b => rw [hn] at hname; simp at hname
  | num n => rw [hn] at hname; simp at hname
  | float l => rw [hn] at hname; simp at hname
  | arr xs => rw [hn] at hname; simp at hname
  | obj kvs => rw [hn] at hname; simp at hname

/-- C2 witness: the theorem applied to a concrete `function_call` block
with the unparseable argument string "not json". -/
theorem function_call_invalid_arguments_empty_input_witness :
    ∃ m nm,
      convertBlock [("type", Json.str "function_call"), ("id", Json.str "c9"),
          ("arguments", Json.str "not json")] = .ok (some m) ∧
      m.content = [ContentPart.tool_use "c9" nm []
        (some (get_status_of [("type", Json.str "function_call"), ("id", Json.str "c9"),
          ("arguments", Json.str "not json")]))] ∧
      ∀ rest, output_to_items ([("type", Json.str "function_call"), ("id", Json.str "c9"),
          ("arguments", Json.str "not json")] :: rest) =
        (output_to_items rest).map (fun its => m :: its) :=
  function_call_invalid_arguments_empty_input _ "not json" "c9" rfl rfl rfl rfl rfl

/-- C3: over any sequence of blocks none of which raises, conversion
succeeds and emits exactly one item per known-discriminator block and zero
per unknown one, in input order: the result is the map of `itemOf` over the
known-typed blocks, and its length is their count. -/
theorem output_to_items_known_blocks_only (l : List RawObj)
    (h : l.all convOkB = true) :
    ∃ items, output_to_items l = .ok items ∧
      items = (l.filter isKnownBlock).map itemOf ∧
      items.length = l.countP isKnownBlock := by
  induction l with
  | nil => exact ⟨[], rfl, rfl, rfl⟩
  | cons o rest ih =>
    simp only [List.all_cons, Bool.and_eq_true] at h
    obtain ⟨ho, hrest⟩ := h
    obtain ⟨items, hout, hfm, hlen⟩ := ih hrest
    have hconv : ∃ r, convertBlock o = .ok r := by
      revert ho; simp only [convOkB]
      cases convertBlock o <;> simp
    obtain ⟨r, hr⟩ := hconv
    by_cases hk : isKnownBlock o = true
    · cases r with
      | none => exact (convert_known_not_none o hk hr).elim
      | some m =>
        have hitem : itemOf o = m := by simp [itemOf, hr]
        refine ⟨m :: items, ?_, ?_, ?_⟩
        · simp [output_to_items, hr, hout, Except.map]
        · simp [List.filter_cons, hk, hitem, hfm]
        · simp [List.countP_cons, hk, hlen]
    · have hk' : isKnownBlock o = false := by simpa using hk
      have hnone := convert_unknown o hk'
      refine ⟨items, ?_, ?_, ?_⟩
      · simp [output_to_items, hnone, hout]
      · simp [List.filter_cons, hk', hfm]
      · simp [List.countP_cons, hk', hlen]

/-- C3 witness: the theorem applied to a concrete sequence mixing a
`message`, an unknown block, a `function_call` and a `computer_call`. -/
theorem output_to_items_known_blocks_only_witness :
    ∃ items,
      output_to_items
        [[("type", Json.str "message"), ("id", Json.str "m1"), ("role", Json.str "assistant")],
         [("type", Json.str "mystery_block")],
         [("type", Json.str "function_call"), ("id", Json.str "c1")],
         [("type", Json.str "computer_call"), ("id", Json.str "b1")]] = .ok items ∧
      items =
        (([[("type", Json.str "message"), ("id", Json.str "m1"), ("role", Json.str "assistant")],
           [("type", Json.str "mystery_block")],
           [("type", Json.str "function_call"), ("id", Json.str "c1")],
           [("type", Json.str "computer_call"), ("id", Json.str "b1")]] :
             List RawObj).filter isKnownBlock).map itemOf ∧
      items.length =
        ([[("type", Json.str "message"), ("id", Json.str "m1"), ("role", Json.str "assistant")],
          [("type", Json.str "mystery_block")],
          [("type", Json.str "function_call"), ("id", Json.str "c1")],
          [("type", Json.str "computer_call"), ("id", Json.str "b1")]] :
            List RawObj).countP isKnownBlock :=
  output_to_items_known_blocks_only _ (by decide)

/-- C4: for both guardrail kinds, `run` on a non-callable target raises
`UserError` (there is no check to invoke), and `run` on a callable target
— synchronous or awaitable — returns a result whose `output` is exactly
the value the check produced, `output_info` and `tripwire_triggered`
included; `run` succeeds regardless of the tripwire flag. -/
theorem guardrail_run_preserves_output :
    (∀ (Ctx Ag Inp Info : Type) (g : InputGuardrail Ctx Ag Inp Info)
        (c : Ctx) (a : Ag) (i : Inp),
      (g.guardrail_function = GuardTarget.notCallable → ∃ e, g.run c a i = .error e) ∧
      (∀ f, g.guardrail_function = GuardTarget.sync f →
        ∃ res, g.run c a i = .ok res ∧ res.output = f c a i) ∧
      (∀ f, g.guardrail_function = GuardTarget.awaitable f →
        ∃ res, g.run c a i = .ok res ∧ res.output = f c a i)) ∧
    (∀ (Ctx Ag Out Info : Type) (g : OutputGuardrail Ctx Ag Out Info)
        (c : Ctx) (a : Ag) (out : Out),
      (g.guardrail_function = GuardTarget.notCallable → ∃ e, g.run c a out = .error e) ∧
      (∀ f, g.guardrail_function = GuardTarget.sync f →
        ∃ res, g.run c a out = .ok res ∧ res.output = f c a out ∧
          res.agent_output = out) ∧
      (∀ f, g.guardrail_function = GuardTarget.awaitable f →
        ∃ res, g.run c a out = .ok res ∧ res.output = f c a out ∧
          res.agent_output = out)) := by
  constructor
  · intro Ctx Ag Inp Info g c a i
    refine ⟨?_, ?_, ?_⟩
    · intro h; exact ⟨⟨"Input guardrail function must be callable"⟩,
        by simp [InputGuardrail.run, h]⟩
    · intro f h; exact ⟨⟨g, f c a i⟩, by simp [InputGuardrail.run, h], rfl⟩
    · intro f h; exact ⟨⟨g, f c a i⟩, by simp [InputGuardrail.run, h], rfl⟩
  · intro Ctx Ag Out Info g c a out
    refine ⟨?_, ?_, ?_⟩
    · intro h; exact ⟨⟨"Output guardrail function must be callable"⟩,
        by simp [OutputGuardrail.run, h]⟩
    · intro f h; exact ⟨⟨g, out, a, f c a out⟩, by simp [OutputGuardrail.run, h], rfl, rfl⟩
    · intro f h; exact ⟨⟨g, out, a, f c a out⟩, by simp [OutputGuardrail.run, h], rfl, rfl⟩

/-- C4 witness: the theorem applied to a concrete tripwire-raising check
and to a concrete non-callable target. -/
theorem guardrail_run_preserves_output_witness :
    (∃ res, (⟨GuardTarget.sync (fun _ _ _ => ⟨7, true⟩), none⟩ :
        InputGuardrail Nat Nat Nat Nat).run 0 0 0 = .ok res ∧
      res.output = ⟨7, true⟩) ∧
    (∃ e, (⟨GuardTarget.notCallable, none⟩ :
        InputGuardrail Nat Nat Nat Nat).run 0 0 0 = .error e) :=
  ⟨(guardrail_run_preserves_output.1 Nat Nat Nat Nat
      ⟨GuardTarget.sync (fun _ _ _ => ⟨7, true⟩), none⟩ 0 0 0).2.1 _ rfl,
   (guardrail_run_preserves_output.1 Nat Nat Nat Nat
      ⟨GuardTarget.notCallable, none⟩ 0 0 0).1 rfl⟩

/-- C6: a well-formed `message` block converts, without an exception, to
exactly one message item that preserves the block's `id` and `role` and
whose content is, in order, one text part per inner `output_text`/`text`
entry, every other inner entry being dropped. -/
theorem message_block_preserves_id_role_text_order (o : RawObj) (i r : String)
    (entries : List Json)
    (ht : typeTag o = some "message")
    (hid : jget o "id" = some (Json.str i))
    (hrole : jget o "role" = some (Json.str r))
    (hcanon : r = "assistant" ∨ r = "user")
    (hc : jget o "content" = some (Json.arr entries))
    (hall : entries.all innerOkB = true)
    (hopt : optFieldsOkB o = true) :
    ∃ m, convertBlock o = .ok (some m) ∧ m.id = i ∧ m.role = r ∧
      m.content = entries.filterMap keptText := by
  have hcl : contentList o = .ok entries := by simp [contentList, hc]
  have hparts := textPartsOf_ok entries hall
  simp only [optFieldsOkB, Bool.and_eq_true, exceptOkB_iff, and_assoc] at hopt
  obtain ⟨⟨pr, hpr⟩, ⟨sr, hsr⟩, ⟨ss, hss⟩⟩ := hopt
  refine ⟨⟨i, r, pr, get_status_of o, entries.filterMap keptText, sr, ss⟩, ?_, rfl, rfl, rfl⟩
  simp [convertBlock, ht, hcl, hparts, hid, hrole, hpr, hsr, hss, hcanon]

/-- C6 witness: the theorem applied to a concrete `message` block whose
content mixes `output_text`, `image` and `text` entries. -/
theorem message_block_preserves_id_role_text_order_witness :
    ∃ m,
      convertBlock [("type", Json.str "message"), ("id", Json.str "m1"),
          ("role", Json.str "user"),
          ("content", Json.arr
            [Json.obj [("type", Json.str "output_text"), ("text", Json.str "hi")],
             Json.obj [("type", Json.str "image")],
             Json.obj [("type", Json.str "text"), ("text", Json.str "yo")]])] =
        .ok (some m) ∧
      m.id = "m1" ∧ m.role = "user" ∧
      m.content =
        [Json.obj [("type", Json.str "output_text"), ("text", Json.str "hi")],
         Json.obj [("type", Json.str "image")],
         Json.obj [("type", Json.str "text"), ("text", Json.str "yo")]].filterMap keptText :=
  message_block_preserves_id_role_text_order _ "m1" "user" _ rfl rfl rfl (Or.inr rfl)
    rfl rfl rfl

/-- C7: on an open block, `add_json` of a dict onto an accumulated dict is
a shallow merge where incoming keys win, while `add_json` of or onto a
non-dict replaces the accumulated value wholesale; instantiated by the two
merge-law examples of the spec on a fresh block. -/
theorem add_json_merge_law :
    (∀ (b : Block) (acc inc : List (String × Json)) (key : String),
      b.closed = false → b.json_content = Json.obj acc →
      (inc.map Prod.fst).Nodup →
      (b.add_json (Json.obj inc)).json_content = Json.obj (dictUpdate acc inc) ∧
      jget (dictUpdate acc inc) key =
        (match jget inc key with
         | some v => some v
         | none => jget acc key)) ∧
    (∀ (b : Block) (j : Json), b.closed = false →
      (j.isObj = false ∨ b.json_content.isObj = false) →
      (b.add_json j).json_content = j) ∧
    (((Block.init BlockType.TEXT).add_json (Json.obj [("a", Json.num 1)])).add_json
        (Json.obj [("b", Json.num 2)])).json_content =
      Json.obj [("a", Json.num 1), ("b", Json.num 2)] ∧
    (((Block.init BlockType.TEXT).add_json (Json.obj [("a", Json.num 1)])).add_json
        (Json.str "x")).json_content = Json.str "x" := by
  refine ⟨?_, ?_, rfl, rfl⟩
  · intro b acc inc key hcl hacc hnd
    constructor
    · simp [Block.add_json, hcl, hacc]
    · exact jget_dictUpdate acc inc key hnd
  · intro b j hcl hno
    cases j <;> cases hjc : b.json_content <;>
      simp_all [Block.add_json, Json.isObj]

/-- C7 witness: the theorem applied to a fresh text block merging a
one-key dict and replacing with the non-dict "x". -/
theorem add_json_merge_law_witness :
    ((Block.init BlockType.TEXT).add_json
      (Json.obj [("a", Json.num 1)])).json_content =
        Json.obj (dictUpdate [] [("a", Json.num 1)]) ∧
    ((Block.init BlockType.TEXT).add_json (Json.str "x")).json_content = Json.str "x" :=
  ⟨(add_json_merge_law.1 (Block.init BlockType.TEXT) [] [("a", Json.num 1)] "a" rfl rfl
      (by simp)).1,
   add_json_merge_law.2.1 (Block.init BlockType.TEXT) (Json.str "x") rfl (Or.inl rfl)⟩

/-- C8: `close` is idempotent, and on a closed block `add_text` and
`add_json` are silent no-ops: the whole block state — text content, JSON
content, closed flag — is unchanged, and nothing is raised (the embedded
methods are total). -/
theorem block_close_idempotent_writes_noop (b : Block) (t : String) (j : Json) :
    b.close.close = b.close ∧
    b.close.add_text t = b.close ∧
    b.close.add_json j = b.close ∧
    b.close.content = b.content ∧
    b.close.json_content = b.json_content ∧
    b.close.closed = true := by
  refine ⟨rfl, ?_, ?_, rfl, rfl, rfl⟩
  · simp [Block.close, Block.add_text]
  · simp [Block.close, Block.add_json]

/-- C8 witness: the theorem applied to a fresh text block, the text "t" and
the JSON value `null`. -/
theorem block_close_idempotent_writes_noop_witness :
    (Block.init BlockType.TEXT).close.close = (Block.init BlockType.TEXT).close ∧
    (Block.init BlockType.TEXT).close.add_text "t" = (Block.init BlockType.TEXT).close ∧
    (Block.init BlockType.TEXT).close.add_json Json.null = (Block.init BlockType.TEXT).close ∧
    (Block.init BlockType.TEXT).close.content = (Block.init BlockType.TEXT).content ∧
    (Block.init BlockType.TEXT).close.json_content = (Block.init BlockType.TEXT).json_content ∧
    (Block.init BlockType.TEXT).close.closed = true :=
  block_close_idempotent_writes_noop (Block.init BlockType.TEXT) "t" Json.null

/-- C9 (from the spec's model of the absent `current_item`): a query on an
open block returns an item-shaped snapshot of its best-known content with
status `in_progress`, a query on a closed block returns status
`completed`, and the two statuses are distinct, so in-progress snapshots
are distinguishable from finalized ones. -/
theorem current_item_in_progress_status :
    (∀ (st : OutputState) (i : Nat) (b : Block),
      lookupBlock st.blocks i = some b → b.closed = false →
      ∃ m, st.current_item i = some m ∧ m.status = ResponseStatus.in_progress ∧
        m.content = snapshotParts b) ∧
    (∀ (st : OutputState) (i : Nat) (b : Block),
      lookupBlock st.blocks i = some b → b.closed = true →
      ∃ m, st.current_item i = some m ∧ m.status = ResponseStatus.completed) ∧
    ResponseStatus.in_progress ≠ ResponseStatus.completed := by
  refine ⟨?_, ?_, by simp⟩
  · intro st i b hl hcl
    refine ⟨⟨b.tool_id.getD "", "assistant", none, ResponseStatus.in_progress,
      snapshotParts b, none, none⟩, ?_, rfl, rfl⟩
    simp [OutputState.current_item, hl, hcl]
  · intro st i b hl hcl
    refine ⟨⟨b.tool_id.getD "", "assistant", none, ResponseStatus.completed,
      snapshotParts b, none, none⟩, ?_, rfl⟩
    simp [OutputState.current_item, hl, hcl]

/-- C9 witness: the theorem applied to a state holding one open text block
that has received the text "h". -/
theorem current_item_in_progress_status_witness :
    ∃ m, (OutputState.mk none [(0, (Block.init BlockType.TEXT).add_text "h")]).current_item 0 =
        some m ∧ m.status = ResponseStatus.in_progress ∧
      m.content = snapshotParts ((Block.init BlockType.TEXT).add_text "h") :=
  current_item_in_progress_status.1
    (OutputState.mk none [(0, (Block.init BlockType.TEXT).add_text "h")]) 0
    ((Block.init BlockType.TEXT).add_text "h") rfl rfl

/-- C10: a `message` or `function_call` block with no `id` key makes
`output_to_items` raise `KeyError`, aborting the whole remaining sequence;
by contrast, missing `status`, `content`, `name` and `arguments` all take
defaults, and a built-in tool-call block with no `id` takes the empty
string. -/
theorem missing_id_raises_keyError :
    (∀ (o : RawObj) (rest : List RawObj),
      typeTag o = some "message" → msgPartsOkB o = true → jget o "id" = none →
      output_to_items (o :: rest) = .error (.keyError "id")) ∧
    (∀ (o : RawObj) (rest : List RawObj),
      typeTag o = some "function_call" → argsStrB o = true → jget o "id" = none →
      output_to_items (o :: rest) = .error (.keyError "id")) ∧
    output_to_items
        [[("type", Json.str "message"), ("id", Json.str "m"), ("role", Json.str "assistant")]] =
      .ok [⟨"m", "assistant", none, .completed, [], none, none⟩] ∧
    output_to_items [[("type", Json.str "function_call"), ("id", Json.str "c")]] =
      .ok [⟨"c", "assistant", none, .completed,
        [ContentPart.tool_use "c" "unknown_function" [] (some .completed)], none, none⟩] ∧
    output_to_items [[("type", Json.str "web_search_call")]] =
      .ok [⟨"", "assistant", none, .completed,
        [ContentPart.tool_reference "" (some "web_search_call") (some .completed)
          (some [])], none, none⟩] :=
  ⟨message_missing_id, fc_missing_id, rfl, rfl, rfl⟩

/-- C10 witness: the theorem applied to a concrete id-less `message` block
followed by a valid one, and to a concrete id-less `function_call`. -/
theorem missing_id_raises_keyError_witness :
    output_to_items [[("type", Json.str "message"), ("role", Json.str "assistant")],
        [("type", Json.str "message"), ("id", Json.str "m2"), ("role", Json.str "user")]] =
      .error (.keyError "id") ∧
    output_to_items [[("type", Json.str "function_call"),
        ("arguments", Json.str "not json")]] =
      .error (.keyError "id") :=
  ⟨missing_id_raises_keyError.1
      [("type", Json.str "message"), ("role", Json.str "assistant")]
      [[("type", Json.str "message"), ("id", Json.str "m2"), ("role", Json.str "user")]]
      rfl rfl rfl,
   missing_id_raises_keyError.2.1
      [("type", Json.str "function_call"), ("arguments", Json.str "not json")]
      [] rfl rfl rfl⟩

end Astral
